import Mathlib

/-!
# Verification of the usersim task subsystem

Shallow embedding of `src/tasks/frequency.py` (the stochastic trigger) and
`src/tasks/iebrowser.py` (the serialized browser executor), with theorems
settling the specification claims about them.

Python floats and clock readings are modelled as rationals; a uniform random
draw from `random.random()` is modelled as an explicit rational argument in
the interval [0, 1).
-/

namespace UserSim

/-- A Python value as far as `Frequency.config` can observe it: an `int`,
a `float`, a `str` (represented by the results that the Python builtins
`float()` and `int()` would give on it, since decimal parsing is a language
primitive and not code of this repository), or any other object (`dict`,
`list`, `None`, ...), on which `float()` and `int()` raise `TypeError`. -/
inductive PyVal where
  | int (n : ℤ)
  | float (q : ℚ)
  | str (asFloat : Option ℚ) (asInt : Option ℤ)
  | obj
deriving DecidableEq, Repr

/-- The Python exceptions raised by `Frequency.config`. -/
inductive PyErr where
  | keyError (field : String)
  | valueError (msg : String)
  | typeError
deriving DecidableEq, Repr

/-- Truncation of a rational toward zero, the behaviour of Python `int()`
on a float: `int(4.7) == 4`, `int(-4.7) == -4`. -/
def truncToward0 (q : ℚ) : ℤ :=
  if 0 ≤ q then ⌊q⌋ else ⌈q⌉

/-- Python `float(v)`: numbers convert, strings convert when parseable
(`ValueError` otherwise), any other object raises `TypeError`. -/
def pyFloat : PyVal → Except PyErr ℚ
  | .int n => .ok n
  | .float q => .ok q
  | .str f _ =>
    match f with
    | some q => .ok q
    | none => .error (.valueError "could not convert string to float")
  | .obj => .error .typeError

/-- Python `int(v)`: ints pass through, floats truncate toward zero, strings
convert only when they spell an integer (`ValueError` otherwise; in
particular a decimal string raises), any other object raises `TypeError`. -/
def pyInt : PyVal → Except PyErr ℤ
  | .int n => .ok n
  | .float q => .ok (truncToward0 q)
  | .str _ i =>
    match i with
    | some n => .ok n
    | none => .error (.valueError "invalid literal for int")
  | .obj => .error .typeError

/-- A Python `dict` with string keys, as the association list of its items;
`dictGet d k` is `d[k]` when the key is present (`k in d` is
`(dictGet d k).isSome`). -/
def dictGet (conf : List (String × PyVal)) (k : String) : Option PyVal :=
  match conf with
  | [] => none
  | (k2, v) :: rest => if k = k2 then some v else dictGet rest k

/-- The state of a `Frequency` trigger (`Frequency.__init__`):
`_time_per_trigger = 3600 / freq`, `_reps`, `_triggered`, the opaque nested
`_task` configuration, and `_last_check` (the clock reading at
construction). -/
structure FreqState where
  time_per_trigger : ℚ
  reps : ℤ
  triggered : ℤ
  task : PyVal
  last_check : ℚ
deriving DecidableEq, Repr

namespace Frequency

/-- Constructor `Frequency.__init__(freq, reps, task)` at clock reading `now`. -/
def init (freq : ℚ) (reps : ℤ) (task : PyVal) (now : ℚ) : FreqState :=
  { time_per_trigger := 3600 / freq
    reps := reps
    triggered := 0
    task := task
    last_check := now }

/-- The probability value computed by `Frequency.__call__`:
`trigger_probability = slept / self._time_per_trigger` where
`slept = now - self._last_check`. It is not clamped. -/
def triggerProbability (s : FreqState) (now : ℚ) : ℚ :=
  (now - s.last_check) / s.time_per_trigger

/-- Invocation `Frequency.__call__` at clock reading `now` with uniform draw `draw`:
updates `_last_check`, fires when `draw < trigger_probability`
(incrementing `_triggered` and spawning the nested task). Returns the new
state and whether `api.new_task` was called. -/
def call (s : FreqState) (now : ℚ) (draw : ℚ) : FreqState × Bool :=
  let slept := now - s.last_check
  let s1 := { s with last_check := now }
  let p := slept / s.time_per_trigger
  if draw < p then
    ({ s1 with triggered := s1.triggered + 1 }, true)
  else
    (s1, false)

/-- Method `Frequency.stop`: false when `_reps == 0` or `_triggered < _reps`,
true otherwise. -/
def stop (s : FreqState) : Bool :=
  if s.reps = 0 ∨ s.triggered < s.reps then false else true

/-- Method `Frequency.status`. -/
def status (s : FreqState) : String :=
  "Triggered " ++ toString s.triggered ++ " times."

/-- Method `Frequency.cleanup`: a no-op on the trigger state. -/
def cleanup (s : FreqState) : FreqState := s

/-- Classmethod `Frequency.config(conf_dict)` at clock reading `now`. The configuration
dictionary is a finite map from keys to `PyVal`. Checks run in order
`frequency`, `repetitions`, `task`; each raises at the first failure. The
`try/except ValueError` around `float(...)` and `int(...)` re-raises a
`ValueError` but lets a `TypeError` escape. -/
def config (conf : List (String × PyVal)) (now : ℚ) : Except PyErr FreqState :=
  match dictGet conf "frequency" with
  | none => .error (.keyError "frequency parameter missing from configuration")
  | some fv =>
    match pyFloat fv with
    | .error (.valueError _) =>
      .error (.valueError "frequency value cannot be interpreted as a number")
    | .error e => .error e
    | .ok freq =>
      if freq ≤ 0 then .error (.valueError "frequency value is not valid") else
      match dictGet conf "repetitions" with
      | none => .error (.keyError "repetitions parameter missing from configuration")
      | some rv =>
        match pyInt rv with
        | .error (.valueError _) =>
          .error (.valueError "repetitions value cannot be interpreted as a number")
        | .error e => .error e
        | .ok reps =>
          if reps < 0 then .error (.valueError "repetitions value is not valid") else
          match dictGet conf "task" with
          | none => .error (.keyError "task parameter missing from configuration")
          | some tv => .ok (init freq reps tv now)

/-- An orchestrator-side run of the trigger: on each cycle the trigger is
invoked only while `stop()` is false (the orchestrator retires a task once
`stop()` returns true). Each event is a pair of clock reading and uniform
draw. -/
def run (s : FreqState) (evs : List (ℚ × ℚ)) : FreqState :=
  evs.foldl (fun st e => if stop st then st else (call st e.1 e.2).1) s

end Frequency

/-- The spec invariant on the trigger state:
`maxTriggers == 0 OR triggerCount <= maxTriggers`. -/
def freqInv (s : FreqState) : Prop :=
  s.reps = 0 ∨ s.triggered ≤ s.reps

instance (s : FreqState) : Decidable (freqInv s) := by
  unfold freqInv; infer_instance

/-! ## The serialized browser executor (`src/tasks/iebrowser.py`)

`IEManager` keeps class-level shared state: `_action_queue` (a FIFO queue,
`None` until `__new__` runs and again after teardown), `_persist`, and
`_ie` (the browser COM object, modelled as a flag). An action request is
the tuple `(action, task_id, delay)` put on the queue. An action is
identified by whether it is the implicit `_start_ie` action and by whether
running it raises; the trace of processed requests, the `api.add_feedback`
log and the ghost list of all requests ever enqueued are carried along for
specification purposes. -/

/-- One queued request `(action, task_id, delay)`. `isStart` marks the
implicit `_start_ie` action; `fails` says whether calling the action
raises; `site` is the argument of a `_visit_site` action. -/
structure Req where
  isStart : Bool
  fails : Bool
  site : String
  taskId : ℕ
  delay : ℕ
deriving DecidableEq, Repr

/-- The request `(cls._start_ie, 0, 10)` queued by `IEManager.__new__`. -/
def startReq : Req :=
  { isStart := true, fails := false, site := "", taskId := 0, delay := 10 }

/-- The `IEManager` class state together with observation ghosts.
`queue = none` models `_action_queue is None`; `ie` models whether `_ie`
is a live browser object; `feedback` records the `task_id` of every
`api.add_feedback` call in order; `execTrace` records every request the
worker has processed, in order; `history` is a ghost recording every
request ever put on the queue, in order. -/
structure Mgr where
  queue : Option (List Req)
  persist : Bool
  ie : Bool
  feedback : List ℕ
  execTrace : List Req
  history : List Req
deriving DecidableEq, Repr

/-- The contents of the action queue, empty when the queue object is gone. -/
def Mgr.pending (m : Mgr) : List Req :=
  m.queue.getD []

/-- The initial class state of `IEManager`: `_action_queue = None`,
`_persist = True`, `_ie = None`. -/
def Mgr.start : Mgr :=
  { queue := none, persist := true, ie := false
    feedback := [], execTrace := [], history := [] }

namespace IEManager

/-- Constructor `IEManager.__new__`: if `_action_queue is None`, create the queue,
spawn the consumer thread, and put the `_start_ie` request on the queue;
otherwise leave everything as it is. -/
def new (m : Mgr) : Mgr :=
  if m.queue = none then
    { m with queue := some [startReq], history := m.history ++ [startReq] }
  else m

/-- Running one dequeued action inside the worker: the request joins the
processed trace; `try: action() except Exception: api.add_feedback(task_id,
traceback.format_exc())` records one feedback entry when the action raises;
a successful `_start_ie` makes `_ie` live. -/
def execReq (m : Mgr) (r : Req) : Mgr :=
  let m1 := { m with execTrace := m.execTrace ++ [r] }
  if r.fails then { m1 with feedback := m1.feedback ++ [r.taskId] }
  else if r.isStart then { m1 with ie := true }
  else m1

/-- One iteration of the consumer loop in `IEManager._action_executor`,
including the loop condition `cls._persist or not cls._action_queue.empty()`.
With the condition true and an empty queue, `get(timeout=1)` raises
`queue.Empty` and the loop continues unchanged; with a request available,
the head is dequeued and executed. With the condition false, the loop
exits and teardown runs: `_action_queue = None`, `_persist = True`, and
the browser is quit or force-killed, leaving `_ie = None`. When no worker
exists (`queue = none`) nothing happens. -/
def workerIter (m : Mgr) : Mgr :=
  match m.queue with
  | none => m
  | some q =>
    if m.persist ∨ q ≠ [] then
      match q with
      | [] => m
      | r :: rest => execReq { m with queue := some rest } r
    else
      { m with queue := none, persist := true, ie := false }

/-- Method `IEManager.get(site, task_id, delay)`: put a `_visit_site` request on
the action queue. When `_action_queue is None` (after teardown), the
attribute access `cls._action_queue.put` raises; the error case carries no
new state. -/
def get (m : Mgr) (r : Req) : Except Unit Mgr :=
  match m.queue with
  | none => .error ()
  | some q => .ok { m with queue := some (q ++ [r]), history := m.history ++ [r] }

/-- Method `IEManager.close_browser`: set `_persist = False` and nothing else. -/
def close_browser (m : Mgr) : Mgr :=
  { m with persist := false }

/-- Method `IEManager.status`: uninitialized / busy / idle. The busy bit of the
COM object is outside the model, so a live browser reports via `busy`. -/
def status (m : Mgr) (busy : Bool) : String :=
  if !m.ie then "IE has not yet been fully started."
  else if busy then "IE reports that it is loading a web page."
  else "IE is idle."

end IEManager

/-- An interleaving event of the executor system: a task constructing the
manager (`IEManager()`), a task submitting a visit (`IEManager.get`, a
failed submission leaving the state unchanged), a shutdown request
(`IEManager.close_browser`), or one worker-loop iteration. -/
inductive Ev where
  | new
  | get (r : Req)
  | close
  | work
deriving DecidableEq, Repr

/-- Apply one event to the shared class state. -/
def stepEv (m : Mgr) (e : Ev) : Mgr :=
  match e with
  | .new => IEManager.new m
  | .get r =>
    match IEManager.get m r with
    | .ok m2 => m2
    | .error _ => m
  | .close => IEManager.close_browser m
  | .work => IEManager.workerIter m

/-- Apply a sequence of interleaved events. -/
def runEv (m : Mgr) (es : List Ev) : Mgr :=
  es.foldl stepEv m

/-- Modelled from the spec: the validated configuration a browser task is
built from. `tasks/browser.py` is not under `src/`; per the spec a
ResourceBoundTask is configured with a set of candidate sites (required)
and a `close_browser` boolean (optional, default false, added by
`validate`). -/
structure BrowserCfg where
  sites : List String
  close_browser : Bool
deriving DecidableEq, Repr

/-- The per-instance state of an `IEBrowser` task: the stored sites
(modelled from the spec, kept by the `Browser` base constructor) and
`_close`. `_driver` is the `IEManager` class itself and carries no
per-instance state. -/
structure IEBState where
  sites : List String
  close : Bool
deriving DecidableEq, Repr

/-- Constructor `IEBrowser.__init__(config)` on a host whose `platform.system()` is
`plat`, with shared `IEManager` class state `m`. The platform check comes
first: off Windows it raises `OSError` before the base constructor runs
and before `IEManager()` is evaluated. On Windows, the base constructor
stores the configuration (modelled from the spec, `tasks/browser.py` not
being under `src/`), `_close` is read, and `self._driver = IEManager()`
runs `IEManager.__new__`. Returns the construction outcome and the
resulting shared class state. -/
def IEBrowser.init (plat : String) (cfg : BrowserCfg) (m : Mgr) :
    Except String IEBState × Mgr :=
  if plat = "Windows" then
    (.ok { sites := cfg.sites, close := cfg.close_browser }, IEManager.new m)
  else
    (.error "This task is only compatible with Windows.", m)

/-- The reachability invariant of the executor state: the processed trace
followed by the still-pending queue is exactly the sequence of requests
ever enqueued (FIFO, nothing skipped or reordered); a live queue implies
something was enqueued; and the first request ever enqueued is the
implicit `_start_ie` request. -/
def MgrInv (m : Mgr) : Prop :=
  m.execTrace ++ m.pending = m.history ∧
  (m.queue ≠ none → m.history ≠ []) ∧
  (m.history ≠ [] → m.history.head? = some startReq)

/-- A concrete succeeding visit request, used in witnesses. -/
def reqA : Req :=
  { isStart := false, fails := false, site := "site-a", taskId := 1, delay := 0 }

/-- A concrete failing visit request, used in witnesses. -/
def reqB : Req :=
  { isStart := false, fails := true, site := "site-b", taskId := 2, delay := 0 }

/-! ## Helper lemmas about the executor model -/

namespace IEManager

theorem execReq_queue (m : Mgr) (r : Req) : (execReq m r).queue = m.queue := by
  unfold execReq; dsimp only; split <;> [rfl; split <;> rfl]

theorem execReq_persist (m : Mgr) (r : Req) : (execReq m r).persist = m.persist := by
  unfold execReq; dsimp only; split <;> [rfl; split <;> rfl]

theorem execReq_history (m : Mgr) (r : Req) : (execReq m r).history = m.history := by
  unfold execReq; dsimp only; split <;> [rfl; split <;> rfl]

theorem execReq_execTrace (m : Mgr) (r : Req) :
    (execReq m r).execTrace = m.execTrace ++ [r] := by
  unfold execReq; dsimp only; split <;> [rfl; split <;> rfl]

theorem execReq_feedback (m : Mgr) (r : Req) :
    (execReq m r).feedback = m.feedback ++ (if r.fails then [r.taskId] else []) := by
  unfold execReq; dsimp only; split <;> rename_i h
  · simp [h]
  · split <;> simp [h]

/-- With no queue object there is no live worker and a worker event does
nothing. -/
theorem workerIter_none (m : Mgr) (h : m.queue = none) : workerIter m = m := by
  unfold workerIter
  rw [h]

/-- With a request at the head of the queue, one worker iteration dequeues
and executes it. -/
theorem workerIter_exec (m : Mgr) (r : Req) (rest : List Req)
    (h : m.queue = some (r :: rest)) :
    workerIter m = execReq { m with queue := some rest } r := by
  unfold workerIter
  rw [h]
  simp

/-- With the loop condition still true and an empty queue, one worker
iteration is the timed-out `get` and changes nothing. -/
theorem workerIter_timeout (m : Mgr) (h : m.queue = some []) (hp : m.persist = true) :
    workerIter m = m := by
  unfold workerIter
  rw [h]
  simp [hp]

/-- With the loop condition false, one worker iteration exits the loop and
tears the executor down. -/
theorem workerIter_exit (m : Mgr) (h : m.queue = some []) (hp : m.persist = false) :
    workerIter m = { m with queue := none, persist := true, ie := false } := by
  unfold workerIter
  rw [h]
  simp [hp]

/-- Draining: from a queue holding `q`, `q.length` worker iterations
process exactly the requests of `q`, in order, leaving the queue empty,
`persist` untouched, and one feedback entry per failing request. -/
theorem workerIter_drain : ∀ (q : List Req) (m : Mgr), m.queue = some q →
    (workerIter^[q.length] m).queue = some [] ∧
    (workerIter^[q.length] m).persist = m.persist ∧
    (workerIter^[q.length] m).execTrace = m.execTrace ++ q ∧
    (workerIter^[q.length] m).history = m.history ∧
    (workerIter^[q.length] m).feedback
      = m.feedback ++ (q.filter (fun r => r.fails)).map (fun r => r.taskId) := by
  intro q
  induction q with
  | nil =>
    intro m h
    simp [h]
  | cons r rest ih =>
    intro m h
    rw [List.length_cons, Function.iterate_succ_apply, workerIter_exec m r rest h]
    have hq : (execReq { m with queue := some rest } r).queue = some rest := by
      rw [execReq_queue]
    obtain ⟨h1, h2, h3, h4, h5⟩ := ih _ hq
    refine ⟨h1, ?_, ?_, ?_, ?_⟩
    · rw [h2, execReq_persist]
    · rw [h3, execReq_execTrace]; simp
    · rw [h4, execReq_history]
    · rw [h5, execReq_feedback]
      rcases hf : r.fails <;> simp [hf]

end IEManager

theorem mgrInv_start : MgrInv Mgr.start := by
  refine ⟨rfl, ?_, ?_⟩ <;> intro h <;> simp [Mgr.start] at h

theorem mgrInv_step (m : Mgr) (e : Ev) (hm : MgrInv m) : MgrInv (stepEv m e) := by
  obtain ⟨hfifo, hne, hhead⟩ := hm
  cases e with
  | new =>
    show MgrInv (IEManager.new m)
    unfold IEManager.new
    split <;> rename_i h
    · have hp : m.pending = [] := by simp [Mgr.pending, h]
      have htr : m.execTrace = m.history := by simpa [hp] using hfifo
      refine ⟨?_, ?_, ?_⟩
      · simp [Mgr.pending, htr]
      · simp
      · intro _
        rcases hh : m.history with _ | ⟨a, t⟩
        · simp [hh]
        · have := hhead (by simp [hh])
          simp [hh] at this ⊢
          exact this
    · exact ⟨hfifo, hne, hhead⟩
  | get r =>
    show MgrInv (match IEManager.get m r with | .ok m2 => m2 | .error _ => m)
    unfold IEManager.get
    rcases hq : m.queue with _ | q
    · exact ⟨hfifo, hne, hhead⟩
    · have hhist : m.history ≠ [] := hne (by simp [hq])
      refine ⟨?_, ?_, ?_⟩
      · simp only [Mgr.pending, hq, Option.getD] at hfifo ⊢
        simp [← hfifo]
      · simp [hhist]
      · intro _
        rcases hh : m.history with _ | ⟨a, t⟩
        · exact absurd hh hhist
        · have := hhead (by simp [hh])
          simp [hh] at this ⊢
          exact this
  | close =>
    exact ⟨hfifo, hne, hhead⟩
  | work =>
    show MgrInv (IEManager.workerIter m)
    rcases hq : m.queue with _ | q
    · rw [IEManager.workerIter_none m hq]
      exact ⟨hfifo, hne, hhead⟩
    · have hhist : m.history ≠ [] := hne (by simp [hq])
      rcases q with _ | ⟨r, rest⟩
      · rcases hp : m.persist
        · rw [IEManager.workerIter_exit m hq hp]
          refine ⟨?_, ?_, hhead⟩
          · simp only [Mgr.pending, hq, Option.getD] at hfifo
            simpa [Mgr.pending] using hfifo
          · intro h; exact absurd rfl h
        · rw [IEManager.workerIter_timeout m hq hp]
          exact ⟨hfifo, hne, hhead⟩
      · rw [IEManager.workerIter_exec m r rest hq]
        refine ⟨?_, fun _ => by rw [IEManager.execReq_history]; exact hhist,
          by rw [IEManager.execReq_history]; exact hhead⟩
        rw [IEManager.execReq_execTrace, IEManager.execReq_history]
        have hpend : (IEManager.execReq { m with queue := some rest } r).pending
            = rest := by
          simp [Mgr.pending, IEManager.execReq_queue]
        rw [hpend]
        simp only [Mgr.pending, hq, Option.getD] at hfifo
        simpa using hfifo

theorem mgrInv_run : ∀ (es : List Ev) (m : Mgr), MgrInv m → MgrInv (runEv m es) := by
  intro es
  induction es with
  | nil => intro m hm; exact hm
  | cons e t ih =>
    intro m hm
    exact ih _ (mgrInv_step m e hm)

/-! ## Helper lemmas about the trigger -/

namespace Frequency

/-- A firing invocation: with the draw below the computed probability, the
trigger updates the clock, increments the count and reports a fire. -/
theorem call_fire (s : FreqState) (now draw : ℚ)
    (h : draw < triggerProbability s now) :
    call s now draw = ({ s with last_check := now, triggered := s.triggered + 1 }, true) := by
  unfold triggerProbability at h
  unfold call
  dsimp only
  rw [if_pos h]

/-- A non-firing invocation: only the clock is updated. -/
theorem call_nofire (s : FreqState) (now draw : ℚ)
    (h : ¬ draw < triggerProbability s now) :
    call s now draw = ({ s with last_check := now }, false) := by
  unfold triggerProbability at h
  unfold call
  dsimp only
  rw [if_neg h]

/-- Method `stop` returns false exactly when the trigger is unbounded or under
its bound. -/
theorem stop_eq_false_iff (s : FreqState) :
    stop s = false ↔ (s.reps = 0 ∨ s.triggered < s.reps) := by
  unfold stop
  split <;> rename_i h <;> simp [h]

end Frequency

/-! ## Claim theorems -/

/-- C1: for every trigger state, `Frequency.stop()` returns true if and
only if `maxTriggers` (`_reps`) is nonzero and `_triggered` has reached
`_reps`; in particular with `repetitions = 5` it is false while the count
is below 5 and true once the count equals 5, whatever the firing sequence
that produced the state. -/
theorem freq_stop_characterization :
    ∀ s : FreqState,
      (Frequency.stop s = true ↔ (s.reps ≠ 0 ∧ s.reps ≤ s.triggered)) ∧
      (s.reps = 5 →
        ((s.triggered < 5 → Frequency.stop s = false) ∧
         (s.triggered = 5 → Frequency.stop s = true))) := by
  intro s
  constructor
  · unfold Frequency.stop
    split <;> rename_i h
    · constructor
      · intro hh; cases hh
      · intro hh
        rcases h with h | h
        · exact absurd h hh.1
        · omega
    · constructor
      · intro _
        push_neg at h
        exact ⟨h.1, by omega⟩
      · intro _; rfl
  · intro h5
    constructor
    · intro hlt
      rw [Frequency.stop_eq_false_iff]
      right; omega
    · intro heq
      unfold Frequency.stop
      rw [if_neg]
      omega

/-- Witness for C1 at two concrete states with `repetitions = 5`. -/
theorem freq_stop_characterization_witness :
    Frequency.stop ⟨1, 5, 4, PyVal.obj, 0⟩ = false ∧
    Frequency.stop ⟨1, 5, 5, PyVal.obj, 0⟩ = true :=
  ⟨((freq_stop_characterization ⟨1, 5, 4, PyVal.obj, 0⟩).2 rfl).1 (by norm_num),
   ((freq_stop_characterization ⟨1, 5, 5, PyVal.obj, 0⟩).2 rfl).2 rfl⟩

/-- C2 counterexample: with `frequency = 3600` (mean interval 1 s) and 2 s
elapsed, the probability value the code computes is 2, exceeding 1: it is
not the clamped value `min(elapsed/meanInterval, 1) = 1` claimed. -/
theorem freq_probability_unclamped_cex :
    Frequency.triggerProbability (Frequency.init 3600 0 PyVal.obj 0) 2 = 2 ∧
    min (Frequency.triggerProbability (Frequency.init 3600 0 PyVal.obj 0) 2) 1 = 1 ∧
    ¬ Frequency.triggerProbability (Frequency.init 3600 0 PyVal.obj 0) 2 ≤ 1 := by
  norm_num [Frequency.triggerProbability, Frequency.init]

/-- C2 amended: `meanIntervalSeconds = 3600/frequency`; each invocation
computes the unclamped value `elapsed / meanIntervalSeconds` and fires
exactly when the uniform draw is below it, so for draws in [0, 1) the
firing event coincides with `draw < min(elapsed/meanInterval, 1)` (the
effective firing chance is clamped even though the computed value is
not); with `frequency = 3600` and 1 s elapsed the computed probability is
exactly 1. -/
theorem freq_probability_amended :
    ∀ (freq : ℚ) (reps : ℤ) (task : PyVal) (t0 : ℚ), 0 < freq →
      ((Frequency.init freq reps task t0).time_per_trigger = 3600 / freq ∧
       (∀ (s : FreqState) (now draw : ℚ),
          ((Frequency.call s now draw).2 = true ↔
            draw < Frequency.triggerProbability s now)) ∧
       (∀ (s : FreqState) (now draw : ℚ), 0 ≤ draw → draw < 1 →
          ((Frequency.call s now draw).2 = true ↔
            draw < min (Frequency.triggerProbability s now) 1)) ∧
       Frequency.triggerProbability (Frequency.init 3600 reps task t0) (t0 + 1) = 1) := by
  intro freq reps task t0 _
  refine ⟨rfl, ?_, ?_, ?_⟩
  · intro s now draw
    by_cases h : draw < Frequency.triggerProbability s now
    · rw [Frequency.call_fire s now draw h]
      simpa using h
    · rw [Frequency.call_nofire s now draw h]
      simpa using h
  · intro s now draw _ hlt1
    by_cases h : draw < Frequency.triggerProbability s now
    · rw [Frequency.call_fire s now draw h]
      simp only [lt_min_iff]
      exact ⟨fun _ => ⟨h, hlt1⟩, fun _ => trivial⟩
    · rw [Frequency.call_nofire s now draw h]
      simp only [lt_min_iff]
      constructor
      · intro hh; cases hh
      · intro hh; exact absurd hh.1 h
  · unfold Frequency.triggerProbability Frequency.init
    norm_num

/-- Witness for C2 amended at `frequency = 3600`, construction time 0. -/
theorem freq_probability_amended_witness :
    Frequency.triggerProbability (Frequency.init 3600 0 PyVal.obj 0) (0 + 1) = 1 :=
  (freq_probability_amended 3600 0 PyVal.obj 0 (by norm_num)).2.2.2

/-- C3 counterexample: the state with `maxTriggers = 5, triggerCount = 5`
satisfies the invariant, yet one more firing invocation (which the code
does not guard against) drives the count to 6 and breaks it: the
invariant is not preserved by every operation from every state satisfying
it. -/
theorem freq_invariant_cex :
    freqInv ⟨1, 5, 5, PyVal.obj, 0⟩ ∧
    ¬ freqInv (Frequency.call ⟨1, 5, 5, PyVal.obj, 0⟩ 1 0).1 := by
  norm_num [Frequency.call, freqInv]

/-- C3 amended: the invariant `maxTriggers == 0 OR triggerCount <=
maxTriggers` holds after construction from a validated (non-negative)
repetition bound, is preserved by `stop`, `status`
and `cleanup` (which do not mutate the state), is preserved by a sample
invocation from any state where `stop()` is false, and therefore holds
throughout every orchestrator-compliant execution (one that never invokes
the trigger once `stop()` is true). A firing invocation from a state where
`stop()` is already true can break it. -/
theorem freq_invariant_amended :
    (∀ (freq : ℚ) (reps : ℤ) (task : PyVal) (t0 : ℚ), 0 ≤ reps →
        freqInv (Frequency.init freq reps task t0)) ∧
    (∀ (s : FreqState) (now draw : ℚ), Frequency.stop s = false →
        freqInv (Frequency.call s now draw).1) ∧
    (∀ s : FreqState, freqInv s → freqInv (Frequency.cleanup s)) ∧
    (∀ (s : FreqState) (evs : List (ℚ × ℚ)), freqInv s →
        freqInv (Frequency.run s evs)) := by
  have hcall : ∀ (s : FreqState) (now draw : ℚ), Frequency.stop s = false →
      freqInv (Frequency.call s now draw).1 := by
    intro s now draw hstop
    rw [Frequency.stop_eq_false_iff] at hstop
    by_cases h : draw < Frequency.triggerProbability s now
    · rw [Frequency.call_fire s now draw h]
      rcases hstop with h0 | hlt
      · exact Or.inl h0
      · right; dsimp only; omega
    · rw [Frequency.call_nofire s now draw h]
      rcases hstop with h0 | hlt
      · exact Or.inl h0
      · right; dsimp only; omega
  refine ⟨?_, hcall, fun s h => h, ?_⟩
  · intro freq reps task t0 hreps
    right
    simpa [Frequency.init, freqInv] using hreps
  · intro s evs
    induction evs generalizing s with
    | nil => intro h; exact h
    | cons e t ih =>
      intro h
      unfold Frequency.run
      rw [List.foldl_cons]
      rcases hstop : Frequency.stop s with _ | _
      · exact ih _ (hcall s e.1 e.2 hstop)
      · simp only [hstop, if_pos]
        exact ih _ h

/-- Witness for C3 amended: a concrete compliant two-step run from a fresh
trigger keeps the invariant. -/
theorem freq_invariant_amended_witness :
    freqInv (Frequency.run (Frequency.init 3600 5 PyVal.obj 0) [(1, 0), (2, 0)]) :=
  freq_invariant_amended.2.2.2 (Frequency.init 3600 5 PyVal.obj 0) [(1, 0), (2, 0)]
    (freq_invariant_amended.1 3600 5 PyVal.obj 0 (by norm_num))

/-- C4 counterexample: with `frequency` bound to an unparseable string and
`repetitions` absent, `Frequency.config` raises `ValueError`, not the
`KeyError` the claimed if-and-only-if requires for a configuration with an
absent required field (the checks are ordered and short-circuit). -/
theorem freq_config_cex :
    dictGet [("frequency", PyVal.str none none)] "repetitions" = none ∧
    Frequency.config [("frequency", PyVal.str none none)] 0
      = .error (.valueError "frequency value cannot be interpreted as a number") := by
  constructor
  · decide
  · simp +decide [Frequency.config, pyFloat, dictGet]

/-- C4 amended: the checks run in order `frequency`, `repetitions`, `task`
and raise at the first failure, so a missing later field is masked by an
earlier invalid one; `KeyError` is raised for the first missing field;
`float(frequency)` and `int(repetitions)` raise `ValueError` only for
unparseable strings (re-raised with a message) while non-numeric
non-string values raise an uncaught `TypeError`; `float(frequency) <= 0`
and `int(repetitions) < 0` raise `ValueError`; a float `repetitions` is
truncated toward zero by `int()` and accepted when the result is
non-negative; when no exception is raised a `Frequency` instance is
constructed from the converted values, and an exception means no instance
is constructed. -/
theorem freq_config_amended :
    ∀ (conf : List (String × PyVal)) (now : ℚ),
      (dictGet conf "frequency" = none →
        Frequency.config conf now
          = .error (.keyError "frequency parameter missing from configuration")) ∧
      (∀ v, dictGet conf "frequency" = some v → pyFloat v = .error .typeError →
        Frequency.config conf now = .error .typeError) ∧
      (∀ v msg, dictGet conf "frequency" = some v →
        pyFloat v = .error (.valueError msg) →
        Frequency.config conf now
          = .error (.valueError "frequency value cannot be interpreted as a number")) ∧
      (∀ v q, dictGet conf "frequency" = some v → pyFloat v = .ok q → q ≤ 0 →
        Frequency.config conf now = .error (.valueError "frequency value is not valid")) ∧
      (∀ v q, dictGet conf "frequency" = some v → pyFloat v = .ok q → 0 < q →
        ((dictGet conf "repetitions" = none →
            Frequency.config conf now
              = .error (.keyError "repetitions parameter missing from configuration")) ∧
         (∀ w, dictGet conf "repetitions" = some w → pyInt w = .error .typeError →
            Frequency.config conf now = .error .typeError) ∧
         (∀ w msg, dictGet conf "repetitions" = some w →
            pyInt w = .error (.valueError msg) →
            Frequency.config conf now
              = .error (.valueError "repetitions value cannot be interpreted as a number")) ∧
         (∀ w n, dictGet conf "repetitions" = some w → pyInt w = .ok n → n < 0 →
            Frequency.config conf now
              = .error (.valueError "repetitions value is not valid")) ∧
         (∀ w n, dictGet conf "repetitions" = some w → pyInt w = .ok n → 0 ≤ n →
            ((dictGet conf "task" = none →
                Frequency.config conf now
                  = .error (.keyError "task parameter missing from configuration")) ∧
             (∀ t, dictGet conf "task" = some t →
                Frequency.config conf now = .ok (Frequency.init q n t now)))))) := by
  intro conf now
  refine ⟨?_, ?_, ?_, ?_, ?_⟩
  · intro h
    simp [Frequency.config, h]
  · intro v hv hf
    simp [Frequency.config, hv, hf]
  · intro v msg hv hf
    simp [Frequency.config, hv, hf]
  · intro v q hv hf hq
    simp [Frequency.config, hv, hf, hq]
  · intro v q hv hf hq
    have hq2 : ¬ q ≤ 0 := not_le.mpr hq
    refine ⟨?_, ?_, ?_, ?_, ?_⟩
    · intro h
      simp [Frequency.config, hv, hf, hq2, h]
    · intro w hw hi
      simp [Frequency.config, hv, hf, hq2, hw, hi]
    · intro w msg hw hi
      simp [Frequency.config, hv, hf, hq2, hw, hi]
    · intro w n hw hi hn
      simp [Frequency.config, hv, hf, hq2, hw, hi, hn]
    · intro w n hw hi hn
      have hn2 : ¬ n < 0 := not_lt.mpr hn
      constructor
      · intro h
        simp [Frequency.config, hv, hf, hq2, hw, hi, hn2, h]
      · intro t ht
        simp [Frequency.config, hv, hf, hq2, hw, hi, hn2, ht]

/-- Witness for C4 amended: a fully valid configuration constructs the
instance. -/
theorem freq_config_amended_witness :
    Frequency.config
        [("frequency", PyVal.int 2), ("repetitions", PyVal.int 3), ("task", PyVal.obj)] 0
      = .ok (Frequency.init 2 3 PyVal.obj 0) :=
  ((((freq_config_amended
        [("frequency", PyVal.int 2), ("repetitions", PyVal.int 3), ("task", PyVal.obj)]
        0).2.2.2.2
      (PyVal.int 2) 2 (by decide) rfl (by norm_num)).2.2.2.2
      (PyVal.int 3) 3 (by decide) rfl (by norm_num)).2
      PyVal.obj (by decide))

/-- C5 counterexample: an invocation that does not fire still mutates
`_last_check` (the code updates it unconditionally, before the firing
decision), contradicting the claim that a non-firing invocation leaves
`lastSampleTime` unchanged. -/
theorem freq_call_updates_time_cex :
    (Frequency.call ⟨10, 0, 0, PyVal.obj, 0⟩ 5 (9 / 10)).2 = false ∧
    (Frequency.call ⟨10, 0, 0, PyVal.obj, 0⟩ 5 (9 / 10)).1.last_check = 5 ∧
    FreqState.last_check ⟨10, 0, 0, PyVal.obj, 0⟩ = 0 ∧ (5 : ℚ) ≠ 0 := by
  norm_num [Frequency.call]

/-- C5 amended: every sample invocation sets `_last_check` to the current
clock reading (fired or not); `_triggered` grows by one exactly on a
firing invocation; no other field of the trigger state is ever modified by
sampling. -/
theorem freq_call_frame_amended :
    ∀ (s : FreqState) (now draw : ℚ),
      (Frequency.call s now draw).1.last_check = now ∧
      (Frequency.call s now draw).1.triggered
        = s.triggered + (if (Frequency.call s now draw).2 = true then 1 else 0) ∧
      (Frequency.call s now draw).1.reps = s.reps ∧
      (Frequency.call s now draw).1.time_per_trigger = s.time_per_trigger ∧
      (Frequency.call s now draw).1.task = s.task := by
  intro s now draw
  by_cases h : draw < Frequency.triggerProbability s now
  · rw [Frequency.call_fire s now draw h]
    simp
  · rw [Frequency.call_nofire s now draw h]
    simp

/-- C6: `close_browser` only sets `_persist` to false, discarding nothing;
the worker exits its loop (releasing the browser) only from a state with
an empty queue; and with shutdown requested and `N` requests queued, `N`
iterations execute exactly those requests in order, after which the next
iteration tears down, so every queued action runs before the resource is
released. -/
theorem ie_shutdown_drains :
    ∀ m : Mgr,
      ((IEManager.close_browser m).persist = false ∧
       (IEManager.close_browser m).queue = m.queue ∧
       (IEManager.close_browser m).history = m.history ∧
       (IEManager.close_browser m).execTrace = m.execTrace) ∧
      (∀ q, m.queue = some q → (IEManager.workerIter m).queue = none →
          (q = [] ∧ m.persist = false)) ∧
      (∀ q, m.queue = some q → m.persist = false →
          ((IEManager.workerIter^[q.length] m).execTrace = m.execTrace ++ q ∧
           (IEManager.workerIter^[q.length] m).queue = some [] ∧
           (IEManager.workerIter^[q.length + 1] m).queue = none ∧
           (IEManager.workerIter^[q.length + 1] m).ie = false ∧
           (IEManager.workerIter^[q.length + 1] m).execTrace = m.execTrace ++ q)) := by
  intro m
  refine ⟨⟨rfl, rfl, rfl, rfl⟩, ?_, ?_⟩
  · intro q hq hnone
    rcases q with _ | ⟨r, rest⟩
    · rcases hp : m.persist
      · exact ⟨rfl, rfl⟩
      · rw [IEManager.workerIter_timeout m hq hp, hq] at hnone
        cases hnone
    · rw [IEManager.workerIter_exec m r rest hq, IEManager.execReq_queue] at hnone
      cases hnone
  · intro q hq hp
    obtain ⟨h1, h2, h3, _, _⟩ := IEManager.workerIter_drain q m hq
    have hp2 : (IEManager.workerIter^[q.length] m).persist = false := by rw [h2, hp]
    have hexit := IEManager.workerIter_exit _ h1 hp2
    rw [Function.iterate_succ_apply', hexit]
    exact ⟨h3, h1, rfl, rfl, h3⟩

/-- Witness for C6: from a state with two requests queued and shutdown
already requested, two iterations run both requests and the third tears
down. -/
theorem ie_shutdown_drains_witness :
    (IEManager.workerIter^[2 + 1]
        ({ queue := some [reqA, reqB], persist := false, ie := true,
           feedback := [], execTrace := [], history := [reqA, reqB] } : Mgr)).queue
      = none ∧
    (IEManager.workerIter^[2 + 1]
        ({ queue := some [reqA, reqB], persist := false, ie := true,
           feedback := [], execTrace := [], history := [reqA, reqB] } : Mgr)).execTrace
      = [] ++ [reqA, reqB] := by
  have h := ((ie_shutdown_drains
      { queue := some [reqA, reqB], persist := false, ie := true,
        feedback := [], execTrace := [], history := [reqA, reqB] }).2.2
      [reqA, reqB] rfl rfl)
  exact ⟨h.2.2.1, h.2.2.2.2⟩

/-- C7: along every interleaving of constructions, submissions, shutdown
requests and worker iterations from the pristine class state, the
processed trace followed by the pending queue is exactly the enqueue
history (FIFO execution by the single worker, no reordering, no skipping);
the first request ever enqueued, and hence the first ever executed, is the
implicit `_start_ie` request; and `IEManager.__new__` on a fresh executor
queues exactly the start request. -/
theorem ie_fifo_start_first :
    ∀ es : List Ev,
      ((runEv Mgr.start es).execTrace ++ (runEv Mgr.start es).pending
          = (runEv Mgr.start es).history) ∧
      ((runEv Mgr.start es).history ≠ [] →
          (runEv Mgr.start es).history.head? = some startReq) ∧
      ((runEv Mgr.start es).execTrace ≠ [] →
          (runEv Mgr.start es).execTrace.head? = some startReq) ∧
      (∀ m : Mgr, m.queue = none → (IEManager.new m).pending = [startReq]) := by
  intro es
  obtain ⟨h1, _, h3⟩ := mgrInv_run es Mgr.start mgrInv_start
  refine ⟨h1, h3, ?_, ?_⟩
  · intro hne
    rcases he : (runEv Mgr.start es).execTrace with _ | ⟨a, t⟩
    · exact absurd he hne
    · have hh : (runEv Mgr.start es).history
          = a :: (t ++ (runEv Mgr.start es).pending) := by
        rw [← h1, he]
        simp
      have hhd := h3 (by rw [hh]; simp)
      rw [hh] at hhd
      simp only [List.head?] at hhd
      exact hhd
  · intro m hm
    unfold IEManager.new
    rw [if_pos hm]
    simp [Mgr.pending]

/-- Witness for C7 on a concrete event interleaving: construction, two
submissions, a shutdown request and four worker iterations. -/
theorem ie_fifo_start_first_witness :
    (runEv Mgr.start [Ev.new, Ev.get reqA, Ev.close, Ev.get reqB,
        Ev.work, Ev.work, Ev.work, Ev.work]).execTrace.head? = some startReq := by
  have h := ie_fifo_start_first
      [Ev.new, Ev.get reqA, Ev.close, Ev.get reqB, Ev.work, Ev.work, Ev.work, Ev.work]
  exact h.2.2.1 (by decide)

/-- C8: when the action at the head of the queue raises, the worker
iteration that runs it appends exactly one feedback entry tagged with that
request, keeps the worker alive (queue object intact,
`_persist` untouched), and the remaining queued requests are then all
executed in order. -/
theorem ie_failure_isolated :
    ∀ (m : Mgr) (b : Req) (rest : List Req),
      m.queue = some (b :: rest) → b.fails = true →
      ((IEManager.workerIter m).feedback = m.feedback ++ [b.taskId] ∧
       (IEManager.workerIter m).queue = some rest ∧
       (IEManager.workerIter m).persist = m.persist ∧
       (IEManager.workerIter m).execTrace = m.execTrace ++ [b] ∧
       (IEManager.workerIter^[rest.length + 1] m).execTrace
         = m.execTrace ++ b :: rest ∧
       (IEManager.workerIter^[rest.length + 1] m).queue = some [] ∧
       (IEManager.workerIter^[rest.length + 1] m).feedback
         = m.feedback ++ b.taskId
             :: (rest.filter (fun r => r.fails)).map (fun r => r.taskId)) := by
  intro m b rest hq hb
  have hstep := IEManager.workerIter_exec m b rest hq
  have hq1 : (IEManager.workerIter m).queue = some rest := by
    rw [hstep, IEManager.execReq_queue]
  obtain ⟨d1, d2, d3, d4, d5⟩ := IEManager.workerIter_drain rest (IEManager.workerIter m) hq1
  refine ⟨?_, hq1, ?_, ?_, ?_, ?_, ?_⟩
  · rw [hstep, IEManager.execReq_feedback, hb]
    simp
  · rw [hstep, IEManager.execReq_persist]
  · rw [hstep, IEManager.execReq_execTrace]
  · rw [Function.iterate_succ_apply]
    rw [d3, hstep, IEManager.execReq_execTrace]
    simp
  · rw [Function.iterate_succ_apply]
    exact d1
  · rw [Function.iterate_succ_apply]
    rw [d5, hstep, IEManager.execReq_feedback, hb]
    simp

/-- Witness for C8: a failing request at the head of a two-request queue
leaves one feedback entry for task 2 and the later request still runs. -/
theorem ie_failure_isolated_witness :
    (IEManager.workerIter
        ({ queue := some [reqB, reqA], persist := true, ie := true,
           feedback := [], execTrace := [], history := [reqB, reqA] } : Mgr)).feedback
      = [] ++ [reqB.taskId] ∧
    (IEManager.workerIter^[1 + 1]
        ({ queue := some [reqB, reqA], persist := true, ie := true,
           feedback := [], execTrace := [], history := [reqB, reqA] } : Mgr)).execTrace
      = [] ++ reqB :: [reqA] := by
  have h := ie_failure_isolated
      { queue := some [reqB, reqA], persist := true, ie := true,
        feedback := [], execTrace := [], history := [reqB, reqA] }
      reqB [reqA] rfl rfl
  exact ⟨h.1, h.2.2.2.2.1⟩

/-- C9 counterexample: after a full teardown has reset `_action_queue` to
`None`, a direct `IEManager.get` submission fails (the attribute access on
`None` raises) instead of transparently re-creating the executor: `get`
does not fail synchronously only while the executor exists. -/
theorem ie_get_after_teardown_cex :
    (runEv Mgr.start [Ev.new, Ev.close, Ev.work, Ev.work]).queue = none ∧
    IEManager.get (runEv Mgr.start [Ev.new, Ev.close, Ev.work, Ev.work]) reqA
      = .error () := by
  constructor
  · decide
  · have h : (runEv Mgr.start [Ev.new, Ev.close, Ev.work, Ev.work]).queue = none := by
      decide
    unfold IEManager.get
    rw [h]

/-- C9 amended: while the executor exists (`_action_queue` is not `None`)
`get` appends the request and returns with nothing else changed, never
failing; once teardown has reset the queue to `None`, `get` itself raises,
and the executor is re-created only by `IEManager.__new__` (run when a
task is constructed), after which a submission succeeds with the implicit
start request queued ahead of it. -/
theorem ie_get_amended :
    ∀ (m : Mgr) (r : Req),
      (∀ q, m.queue = some q →
          IEManager.get m r
            = .ok { m with queue := some (q ++ [r]), history := m.history ++ [r] }) ∧
      (m.queue = none → IEManager.get m r = .error ()) ∧
      (m.queue = none →
          ∃ m2, IEManager.get (IEManager.new m) r = .ok m2 ∧
            m2.pending = [startReq, r] ∧ m2.persist = m.persist ∧ m2.ie = m.ie) := by
  intro m r
  refine ⟨?_, ?_, ?_⟩
  · intro q hq
    unfold IEManager.get
    rw [hq]
  · intro hm
    unfold IEManager.get
    rw [hm]
  · intro hm
    have hnew : IEManager.new m
        = { m with queue := some [startReq], history := m.history ++ [startReq] } := by
      unfold IEManager.new
      rw [if_pos hm]
    have hget : IEManager.get (IEManager.new m) r = .ok
        { queue := some ([startReq] ++ [r]), persist := m.persist, ie := m.ie,
          feedback := m.feedback, execTrace := m.execTrace,
          history := (m.history ++ [startReq]) ++ [r] } := by
      rw [hnew]
      unfold IEManager.get
      rfl
    exact ⟨_, hget, by simp [Mgr.pending], rfl, rfl⟩

/-- Witness for C9 amended: from the pristine state, construction followed
by a submission queues the start request ahead of the submitted one. -/
theorem ie_get_amended_witness :
    ∃ m2, IEManager.get (IEManager.new Mgr.start) reqA = .ok m2 ∧
      m2.pending = [startReq, reqA] ∧ m2.persist = Mgr.start.persist ∧
      m2.ie = Mgr.start.ie :=
  (ie_get_amended Mgr.start reqA).2.2 rfl

/-- C10: constructing an `IEBrowser` on a platform other than Windows
raises `OSError` at once: no executor state is created or touched, no
worker thread spawned, no action queued — the shared `IEManager` class
state is returned unchanged. -/
theorem ie_browser_nonwindows_oserror :
    ∀ (plat : String) (cfg : BrowserCfg) (m : Mgr), plat ≠ "Windows" →
      ((IEBrowser.init plat cfg m).1
          = .error "This task is only compatible with Windows." ∧
       (IEBrowser.init plat cfg m).2 = m) := by
  intro plat cfg m h
  unfold IEBrowser.init
  rw [if_neg h]
  exact ⟨rfl, rfl⟩

/-- Witness for C10 on a Linux host. -/
theorem ie_browser_nonwindows_oserror_witness :
    (IEBrowser.init "Linux" { sites := ["site-a"], close_browser := false }
        Mgr.start).1
      = .error "This task is only compatible with Windows." ∧
    (IEBrowser.init "Linux" { sites := ["site-a"], close_browser := false }
        Mgr.start).2
      = Mgr.start :=
  ie_browser_nonwindows_oserror "Linux"
    { sites := ["site-a"], close_browser := false } Mgr.start (by decide)

end UserSim
